import Mathlib

/-!
# Verification of the fiscal-XML analyzer core

Shallow embedding of the core logic of the `analisador-xml-api` repository
(`analysis_engine.py`, `analise-xml.py`, `api.py`): status classification,
sequence-gap analysis, gap rendering, copy selection, record extraction and
report generation, together with theorems settling the specification claims.

Python machine-level details are embedded as follows: Python `str` becomes
`String`, Python `int` becomes `ℤ`/`ℕ` (Python integers are unbounded, so no
modular arithmetic is needed), Python `set[int]` becomes `Finset ℕ`,
Python `bytes` becomes `List UInt8`, exceptions become `Except`/`Option`.
Python's primitive string operations (`strip`, `split`, `startswith`,
`isdigit`, `int(...)`, lexicographic comparison) are spelled out below as
executable functions over the character list of a `String`, and Python's
stable `sorted(...)` becomes the stable `List.insertionSort`.
-/

/-! ## Python string primitives -/

/-- Lexicographic `≤` on character lists by code point: Python's string
comparison. -/
def lexLe : List Char → List Char → Bool
  | [], _ => true
  | _ :: _, [] => false
  | a :: as, b :: bs =>
    if a < b then true
    else if b < a then false
    else lexLe as bs

/-- Python `s <= t` on strings. -/
def pyStrLe (s t : String) : Bool := lexLe s.data t.data

/-- Python `str.strip()`: remove leading and trailing whitespace. -/
def pyStrip (s : String) : String :=
  String.mk (((s.data.dropWhile (·.isWhitespace)).reverse.dropWhile
    (·.isWhitespace)).reverse)

/-- Helper for `pySplitOn`: split a character list at every separator
occurrence (Python `str.split(sep)` semantics, keeping empty pieces). -/
def splitOnAux (sep : Char) : List Char → List (List Char)
  | [] => [[]]
  | c :: rest =>
    match splitOnAux sep rest with
    | [] => [[]]
    | g :: gs => if c = sep then [] :: g :: gs else (c :: g) :: gs

/-- Python `s.split(sep)` for a one-character separator;
`"".split(sep) = [""]`. -/
def pySplitOn (sep : Char) (s : String) : List String :=
  (splitOnAux sep s.data).map String.mk

/-- Python `s.startswith(pre)`. -/
def pyStartsWith (s pre : String) : Bool := pre.data.isPrefixOf s.data

/-- Python `str.isdigit()`: non-empty and every character a digit
(restricted to ASCII digits, the only ones occurring in this domain). -/
def pyIsDigit (s : String) : Bool :=
  !s.data.isEmpty && s.data.all (·.isDigit)

/-- Python `int(s)` on an all-digit string: the decimal value. -/
def pyToNat (s : String) : ℕ :=
  s.data.foldl (fun acc c => acc * 10 + (c.toNat - 48)) 0

/-- `Path(...).name`: the final path component (split on `/`). -/
def pathName (s : String) : String :=
  ((pySplitOn '/' s).getLast?).getD s

/-! ## Data model -/

/-- `DadosNota` from `analysis_engine.py` (also in `analise-xml.py`):
one parsed document, with the source's field names and default values. -/
structure DadosNota where
  arquivo_path : String
  tipo_documento : String := "Desconhecido"
  chave_acesso : String := ""
  status_code : String := "N/A"
  status_text : String := "N/A"
  modelo : String := ""
  serie : String := ""
  numero_inicial : String := ""
  numero_final : String := ""
  data_emissao : String := ""
  foi_copiado : Bool := false
  erros : List String := []
deriving DecidableEq, Repr

/-! ## Status classifier and number parser -/

/-- `_mapear_cstat_para_tipo` from `analysis_engine.py` lines 46-58
(equivalently `analise-xml.py` lines 105-110): maps a SEFAZ `cStat` code
to a document-type label.  The fixed table is checked first, then the
rejection fallback for non-empty codes starting with `2`/`3`, then the
generic unknown-status label embedding the literal code. -/
def mapear_cstat_para_tipo (cstat : String) : String :=
  if cstat = "100" then "NFe Autorizada"
  else if cstat = "101" ∨ cstat = "135" then "NFe Cancelada"
  else if cstat = "102" then "NFe Inutilizada"
  else if cstat ≠ "" ∧ (pyStartsWith cstat "2" ∨ pyStartsWith cstat "3") then
    "NFe com Rejeição (" ++ cstat ++ ")"
  else
    "Status Desconhecido (" ++ cstat ++ ")"

/-- The status classifier exactly as claim C1 (spec §4.2) words it:
table first, then in order the rejection fallback, then a plain "Unknown"
label for the empty string (the record default `"Desconhecido"`, which is
the label the spec calls "Unknown" elsewhere, e.g. in scenario 2), then
the unknown-status label embedding the literal code. -/
def classify_spec_claim (code : String) : String :=
  if code = "100" then "NFe Autorizada"
  else if code = "101" ∨ code = "135" then "NFe Cancelada"
  else if code = "102" then "NFe Inutilizada"
  else if pyStartsWith code "2" ∨ pyStartsWith code "3" then
    "NFe com Rejeição (" ++ code ++ ")"
  else if code = "" then "Desconhecido"
  else "Status Desconhecido (" ++ code ++ ")"

/-- The status classifier as claim C1 amended: identical to
`classify_spec_claim` except that the empty string has no dedicated
"Unknown" case and instead falls through to the unknown-status label
embedding the (empty) literal code. -/
def classify_spec_amended (code : String) : String :=
  if code = "100" then "NFe Autorizada"
  else if code = "101" ∨ code = "135" then "NFe Cancelada"
  else if code = "102" then "NFe Inutilizada"
  else if pyStartsWith code "2" ∨ pyStartsWith code "3" then
    "NFe com Rejeição (" ++ code ++ ")"
  else "Status Desconhecido (" ++ code ++ ")"

/-- `parse_numeros` from `analysis_engine.py` lines 33-44 (equivalently
`analise-xml.py` lines 61-69): split on commas, strip each token, keep the
integer value of the all-digit tokens, silently dropping everything else. -/
def parse_numeros (raw_str : String) : Finset ℕ :=
  if raw_str = "" then ∅
  else
    (((pySplitOn ',' raw_str).map pyStrip).filterMap
      (fun n => if pyIsDigit n then some (pyToNat n) else none)).toFinset

/-- The gap computation from `gerar_relatorios` (`analysis_engine.py`
lines 165-176, `analise-xml.py` lines 274-283): the ascending sorted list
of the numbers of the full range `[min, max]` that are absent from the
observed set (`sorted(set(range(min_n, max_n + 1)) - numeros_set)`). -/
def faltantes (numeros : Finset ℕ) (h : numeros.Nonempty) : List ℕ :=
  ((Finset.Icc (numeros.min' h) (numeros.max' h)) \ numeros).sort (· ≤ ·)

/-! ## Gap rendering (`agrupar_lacunas`) -/

/-- One rendered token of `agrupar_lacunas` (the inline conditional of
`analysis_engine.py` lines 101/104): a single number when the run start
equals the run end, otherwise `"start-end"`. -/
def tokenIntervalo (inicio fim : ℤ) : String :=
  if inicio = fim then toString inicio else toString inicio ++ "-" ++ toString fim

/-- The loop of `agrupar_lacunas` (`analysis_engine.py` lines 98-104):
walk the tail of the sorted list, closing the current run `[inicio, prev]`
whenever the next number is not `prev + 1`, and emit the final run at the
end. -/
def lacunasLoop (inicio prev : ℤ) : List ℤ → List String
  | [] => [tokenIntervalo inicio prev]
  | n :: rest =>
    if n = prev + 1 then lacunasLoop inicio n rest
    else tokenIntervalo inicio prev :: lacunasLoop n n rest

/-- `agrupar_lacunas` from `analysis_engine.py` lines 93-105 (equivalently
`analise-xml.py` lines 92-103): sort, group consecutive runs, join the
rendered tokens with `", "`; the empty list renders as `""`. -/
def agrupar_lacunas (numeros : List ℤ) : String :=
  match List.insertionSort (· ≤ ·) numeros with
  | [] => ""
  | x :: xs => String.intercalate ", " (lacunasLoop x x xs)

/-- Spec-side decomposition of a list into its maximal runs of consecutive
integers (adjacent elements differing by exactly `+1`). -/
def runsOf : List ℤ → List (List ℤ)
  | [] => []
  | [a] => [[a]]
  | a :: b :: rest =>
    match runsOf (b :: rest) with
    | [] => [[a]]
    | r :: rs => if b = a + 1 then (a :: r) :: rs else [a] :: r :: rs

/-- Spec-side rendering of one run, as claim C3 words it: a run of length
one renders as the number itself, a longer run as `"start-end"`, never as
a degenerate one-element range. -/
def runToken : List ℤ → String
  | [] => ""
  | [a] => toString a
  | a :: b :: rest =>
    toString a ++ "-" ++ toString ((b :: rest).getLast (List.cons_ne_nil b rest))

/-! ## XML model and record extraction -/

/-- Element-tree model of a parsed XML document: an element has a tag
(namespace prefixes dropped, as the sources always search within the NFe
namespace), its text content (`""` when absent, matching the sources'
`findtext(..., '')` defaults), and its child elements in document order. -/
inductive Xml where
  | node (tag : String) (text : String) (children : List Xml)

def Xml.tag : Xml → String
  | .node t _ _ => t

def Xml.text : Xml → String
  | .node _ s _ => s

def Xml.children : Xml → List Xml
  | .node _ _ c => c

/-- All elements strictly below the elements of a forest, in document
order (preorder), each listed element followed by its own subtree. -/
def descendantsList : List Xml → List Xml
  | [] => []
  | Xml.node t s cs :: rest =>
    Xml.node t s cs :: (descendantsList cs ++ descendantsList rest)

/-- `root.find('.//tag', ns)`: first descendant with the given tag, in
document order. -/
def find_deep (tag : String) (root : Xml) : Option Xml :=
  (descendantsList root.children).find? (fun x => x.tag == tag)

/-- `root.findtext('.//tag', '', ns)` composed with the sources'
`or ''` guard: text of the first matching descendant. -/
def findtext_deep (tag : String) (root : Xml) : Option String :=
  (find_deep tag root).map Xml.text

/-- `node.findtext('tag', default, ns)` on a direct child. -/
def findtext_child (tag : String) (x : Xml) : Option String :=
  (x.children.find? (fun c => c.tag == tag)).map Xml.text

/-- Python `bytes.decode('utf-8', errors='replace')`, which is total:
modelled as strict UTF-8 decoding when the buffer is valid, and otherwise
a byte-wise fallback keeping ASCII bytes and replacing the rest with
U+FFFD (Python replaces per invalid sequence; the claims only rely on
totality of the decode, never on the decoded text of an invalid buffer). -/
def decode_utf8_replace (content : List UInt8) : String :=
  match String.fromUTF8? (ByteArray.mk content.toArray) with
  | some s => s
  | none =>
    String.mk (content.map
      (fun b => if b.toNat < 128 then Char.ofNat b.toNat else '�'))

/-- `obter_dados_xml_de_conteudo` from `analysis_engine.py` lines 60-91:
extract the record of one document from its raw bytes.  The XML parser
(`ET.fromstring`) is an external collaborator and is passed in as a
function returning `Except`, standing for its two outcomes (parsed tree
or `ParseError`); the surrounding `try`/`except` of the source becomes
the `match` on that outcome, so the extractor itself is total and never
propagates a failure. -/
def obter_dados_xml_de_conteudo (parse : String → Except String Xml)
    (filename : String) (content : List UInt8) : DadosNota :=
  match parse (decode_utf8_replace content) with
  | Except.error e =>
      { arquivo_path := filename, erros := ["XML inválido: " ++ e] }
  | Except.ok root =>
      let status_code := pyStrip ((findtext_deep "cStat" root).getD "")
      let status_text := pyStrip ((findtext_deep "xMotivo" root).getD "")
      let nota : DadosNota :=
        { arquivo_path := filename,
          tipo_documento := mapear_cstat_para_tipo status_code,
          status_code := status_code, status_text := status_text }
      let nota :=
        match find_deep "ide" root with
        | some ide =>
            let num := (findtext_child "nNF" ide).getD ""
            { nota with
                modelo := (findtext_child "mod" ide).getD "",
                serie := (findtext_child "serie" ide).getD "",
                numero_inicial := num, numero_final := num,
                data_emissao := (findtext_child "dhEmi" ide).getD "" }
        | none => nota
      let nota :=
        { nota with chave_acesso := pyStrip ((findtext_deep "chNFe" root).getD "") }
      if nota.tipo_documento = "NFe Inutilizada" then
        match find_deep "infInut" root with
        | some inf =>
            { nota with
                numero_inicial :=
                  (findtext_child "nNFIni" inf).getD nota.numero_inicial,
                numero_final :=
                  (findtext_child "nNFFin" inf).getD nota.numero_final }
        | none => nota
      else nota

/-! ## Copy selection and orchestration -/

/-- The per-record body of the copy loop in `run_analysis`
(`analysis_engine.py` lines 268-280): parse `numero_inicial` when it is a
non-empty digit string (`int(...) if ... else None`); the source then
tests `if numero and numero in numeros_para_copiar`, whose Python
truthiness on `Optional[int]` is rendered exactly by the `some` branch
together with `n ≠ 0`; on success look the record's file name up in the
in-memory map and emit the copied `(name, bytes)` pair while setting
`foi_copiado`. -/
def copy_step (xml_files_in_memory : List (String × List UInt8))
    (numeros_para_copiar : Finset ℕ) (nota : DadosNota) :
    DadosNota × Option (String × List UInt8) :=
  match (if nota.numero_inicial ≠ "" ∧ pyIsDigit nota.numero_inicial then
          some (pyToNat nota.numero_inicial) else none : Option ℕ) with
  | some n =>
      if n ≠ 0 ∧ n ∈ numeros_para_copiar then
        match (xml_files_in_memory.find?
            (fun p => p.1 == pathName nota.arquivo_path)).map Prod.snd with
        | some file_content =>
            ({ nota with foi_copiado := true },
             some (pathName nota.arquivo_path, file_content))
        | none => (nota, none)
      else (nota, none)
  | none => (nota, none)

/-! ## Report generation -/

/-- The detailed-export header of `gerar_relatorios` in `analise-xml.py`
lines 325-327 — exactly the columns and order of claim C7 / spec §6. -/
def cabecalho_detalhado : List String :=
  ["arquivo_origem", "tipo_documento", "status_sefaz_cod",
   "status_sefaz_motivo", "numero_inicial", "numero_final", "serie",
   "modelo", "data_emissao", "chave_acesso", "foi_copiado", "erros"]

/-- The detailed-export header of `gerar_relatorios` in
`analysis_engine.py` lines 192-196 (a different schema). -/
def cabecalho_engine : List String :=
  ["modelo", "serie", "numero_nota", "data_emissao", "tipo_documento",
   "status_sefaz_cod", "status_sefaz_motivo", "chave_acesso",
   "arquivo_origem", "foi_copiado", "situacao_numeracao", "erros"]

/-- The CSV delimiter both sources pass to `csv.writer` (`delimiter=';'`). -/
def delimitador_csv : Char := ';'

/-- The encoding both sources open the CSV file with. -/
def codificacao_csv : String := "utf-8"

/-- One detailed row, `analise-xml.py` lines 332-337. -/
def linha_detalhada (nota : DadosNota) : List String :=
  [pathName nota.arquivo_path, nota.tipo_documento, nota.status_code,
   nota.status_text, nota.numero_inicial, nota.numero_final,
   nota.serie, nota.modelo, nota.data_emissao, nota.chave_acesso,
   if nota.foi_copiado then "Sim" else "Não",
   String.intercalate "; " nota.erros]

/-- The detailed export of `gerar_relatorios` in `analise-xml.py` lines
328-337: header row, then one row per record, records sorted by source
file name (`sorted(lista_dados, key=lambda d: d.arquivo_path.name)`). -/
def relatorio_detalhado (lista : List DadosNota) : List (List String) :=
  cabecalho_detalhado ::
    (List.insertionSort
      (fun a b => pyStrLe (pathName a.arquivo_path) (pathName b.arquivo_path))
      lista).map linha_detalhada

/-- The grouping predicate of `gerar_relatorios` in `analysis_engine.py`
line 129: authorized records with non-empty model, series and digit
number. -/
def qualifica_serie (n : DadosNota) : Bool :=
  n.tipo_documento == "NFe Autorizada" && n.modelo != "" && n.serie != ""
    && n.numero_inicial != "" && pyIsDigit n.numero_inicial

/-- Python's lexicographic order on `(str, str)` tuples, as a boolean
`≤`. -/
def tupLe (a b : String × String) : Bool :=
  if a.1.data = b.1.data then lexLe a.2.data b.2.data
  else lexLe a.1.data b.1.data

/-- Python's lexicographic order on `(str, str, str)` tuples. -/
def tripLe (a b : String × String × String) : Bool :=
  if a.1.data = b.1.data then tupLe a.2 b.2
  else lexLe a.1.data b.1.data

/-- The sorted distinct `(modelo, serie)` keys of the authorized groups
(`sorted(dados_por_serie.items())` in both sources). -/
def serie_keys (lista : List DadosNota) : List (String × String) :=
  List.insertionSort (fun a b => tupLe a b)
    (((lista.filter (fun n => qualifica_serie n)).map
        (fun n => (n.modelo, n.serie))).dedup)

/-- The records of one `(modelo, serie)` group, in input order (the order
in which `defaultdict` accumulates them). -/
def grupo_serie (lista : List DadosNota) (chave : String × String) :
    List DadosNota :=
  lista.filter (fun n =>
    qualifica_serie n && n.modelo == chave.1 && n.serie == chave.2)

/-- Modelled from the spec: `_formatar_data` is called by
`gerar_relatorios` in `analysis_engine.py` (lines 213 and 228) but is
defined nowhere in the repository; spec §4.5 carries the issuance
timestamp into the detailed row as-is, so the model is the identity. -/
def formatar_data (s : String) : String := s

/-- A "Presente" row of the engine's detailed export
(`analysis_engine.py` lines 211-217). -/
def linha_engine_presente (nota : DadosNota) : List String :=
  [nota.modelo, nota.serie, nota.numero_inicial,
   formatar_data nota.data_emissao, nota.tipo_documento, nota.status_code,
   nota.status_text, nota.chave_acesso, pathName nota.arquivo_path,
   if nota.foi_copiado then "Sim" else "Não", "Presente",
   String.intercalate "; " nota.erros]

/-- An "Ausente" filler row of the engine's detailed export
(`analysis_engine.py` lines 219-222). -/
def linha_engine_ausente (modelo serie : String) (numero : ℕ) :
    List String :=
  [modelo, serie, toString numero, "", "Ausente", "", "", "", "", "Não",
   "Faltante", ""]

/-- A row of the engine's detailed export for the non-grouped records
(`analysis_engine.py` lines 226-232). -/
def linha_engine_outras (nota : DadosNota) : List String :=
  [nota.modelo, nota.serie, nota.numero_inicial,
   formatar_data nota.data_emissao, nota.tipo_documento, nota.status_code,
   nota.status_text, nota.chave_acesso, pathName nota.arquivo_path,
   if nota.foi_copiado then "Sim" else "Não", "N/A",
   String.intercalate "; " nota.erros]

/-- The engine's per-group rows (`analysis_engine.py` lines 203-222):
walk the whole span `[min, max]` of the group's numbers, emitting the
record row when a record with that number exists (the last one in input
order, matching the dict comprehension's last-wins keys) and an "Ausente"
filler row otherwise. -/
def linhas_grupo (modelo serie : String) (grupo : List DadosNota) :
    List (List String) :=
  let nums := grupo.map (fun n => pyToNat n.numero_inicial)
  match nums.min?, nums.max? with
  | some mn, some mx =>
      (List.range' mn (mx + 1 - mn)).map (fun numero =>
        match grupo.reverse.find?
            (fun n => pyToNat n.numero_inicial == numero) with
        | some nota => linha_engine_presente nota
        | none => linha_engine_ausente modelo serie numero)
  | _, _ => []

/-- The detailed export of `gerar_relatorios` in `analysis_engine.py`
lines 191-232: for an empty record list the file is left empty (lines
115-120); otherwise the engine header row, the grouped rows over each
sorted `(modelo, serie)` key, and finally the remaining records sorted by
`(modelo, serie, numero_inicial)`. -/
def relatorio_detalhado_engine (lista : List DadosNota) :
    List (List String) :=
  if lista.isEmpty then []
  else
    cabecalho_engine ::
      ((serie_keys lista).flatMap
          (fun chave => linhas_grupo chave.1 chave.2 (grupo_serie lista chave))
        ++ (List.insertionSort
            (fun a b => tripLe (a.modelo, a.serie, a.numero_inicial)
              (b.modelo, b.serie, b.numero_inicial))
            (lista.filter (fun n => !qualifica_serie n))).map
              linha_engine_outras)

/-- Python `'c' * n`. -/
def repChar (c : Char) (n : ℕ) : String := String.mk (List.replicate n c)

/-- Python format `{s:<w}` (left-justify to width `w`). -/
def pyLJust (s : String) (w : ℕ) : String :=
  s ++ repChar ' ' (w - s.data.length)

/-- Python format `{s:^w}` (center in width `w`, extra space on the
right). -/
def pyCenter (s : String) (w : ℕ) : String :=
  repChar ' ' ((w - s.data.length) / 2) ++ s
    ++ repChar ' ' ((w - s.data.length) - (w - s.data.length) / 2)

/-- `sorted(Counter(d.tipo_documento for d in lista).items())` from
`gerar_relatorios`: the distinct document-type labels in ascending order,
each with its multiplicity. -/
def contagem_status (lista : List DadosNota) : List (String × ℕ) :=
  (List.insertionSort (fun a b => pyStrLe a b)
      ((lista.map (fun n => n.tipo_documento)).dedup)).map
    (fun s => (s, (lista.map (fun n => n.tipo_documento)).count s))

/-- The summary header and status-frequency section written by
`gerar_relatorios` in `analise-xml.py` lines 245-257 (the lines claim C8
cites), as a function of the record list, the rendered `datetime.now()`
timestamp and the rendered source-folder path. -/
def sumario_cabecalho_status (lista : List DadosNota)
    (agora origem : String) : String :=
  repChar '=' 80 ++ "\n"
  ++ pyCenter "Relatório Sumário de Análise e Cópia de XMLs" 80 ++ "\n"
  ++ repChar '=' 80 ++ "\n\n"
  ++ "Data e Hora: " ++ agora ++ "\n"
  ++ "Pasta de Origem: " ++ origem ++ "\n"
  ++ "Total de XMLs Processados: " ++ toString lista.length ++ "\n\n"
  ++ "--- Sumário de Status dos Documentos ---\n"
  ++ String.join ((contagem_status lista).map
      (fun p => "- " ++ pyLJust p.1 25 ++ ": " ++ toString p.2 ++ "\n"))

/-! ## Orchestration (`run_analysis`, `api.analyze_files`) -/

/-- The outputs of one analysis run handed to the packaging collaborator:
the extracted records, the copied `(name, bytes)` pairs, and the detailed
export. -/
structure RunResult where
  records : List DadosNota
  copied : List (String × List UInt8)
  relatorio_csv : List (List String)
deriving Repr

/-- `run_analysis` from `analysis_engine.py` lines 242-303: reject an
empty input map up front (`raise ValueError`, modelled as `Except.error`)
before any extraction, copying or report generation; otherwise extract
every record, run the copy step over each, and generate the reports.
(The thread-pool extraction is order-nondeterministic in the source; the
model keeps input order, which the claims do not depend on.) -/
def run_analysis (parse : String → Except String Xml)
    (xml_files_in_memory : List (String × List UInt8))
    (numeros_para_copiar : Finset ℕ) : Except String RunResult :=
  if xml_files_in_memory.length = 0 then
    Except.error "Nenhum arquivo XML foi enviado para análise."
  else
    let notas := xml_files_in_memory.map
      (fun p => obter_dados_xml_de_conteudo parse p.1 p.2)
    let processed := notas.map
      (fun nota => copy_step xml_files_in_memory numeros_para_copiar nota)
    Except.ok
      { records := processed.map Prod.fst,
        copied := processed.filterMap Prod.snd,
        relatorio_csv := relatorio_detalhado_engine (processed.map Prod.fst) }

/-- The error surface of `api.analyze_files` (`api.py` lines 62-79): a
`ValueError` from `run_analysis` is caught and returned to the caller as
an HTTP 400 with the error text; success returns 200 (the JSON body is
out of the claims' scope and abstracted to `"ok"`). -/
def analyze_files_response (parse : String → Except String Xml)
    (files : List (String × List UInt8)) (targets : Finset ℕ) :
    ℕ × String :=
  match run_analysis parse files targets with
  | Except.error e => (400, e)
  | Except.ok _ => (200, "ok")

/-! ## Theorems: C1 (classifier), C10 (number parser), C2 (gap analysis) -/

/-- C1 counterexample: on the empty status code the classifier of the code
returns the unknown-status label embedding the empty code,
`"Status Desconhecido ()"`, which is not a plain "Unknown" label (the
record default `"Desconhecido"`), contradicting the claim's dedicated
empty-string rule (rendered faithfully by `classify_spec_claim`). -/
theorem mapear_cstat_empty_not_unknown :
    mapear_cstat_para_tipo "" = "Status Desconhecido (" ++ "" ++ ")"
    ∧ mapear_cstat_para_tipo "" ≠ "Desconhecido"
    ∧ mapear_cstat_para_tipo "" ≠ classify_spec_claim "" := by
  refine ⟨by decide, by decide, by decide⟩

/-- C1 (amended): the classifier is total and deterministic and, for every
status-code string, returns exactly the label given by the fixed table
(`100` authorized, `101`/`135` cancelled, `102` voided/inutilized), then
the rejection label embedding the literal code for codes starting with
`2`/`3`, and otherwise — including the empty string — the unknown-status
label embedding the literal code. -/
theorem mapear_cstat_eq_amended_spec (c : String) :
    mapear_cstat_para_tipo c = classify_spec_amended c := by
  unfold mapear_cstat_para_tipo classify_spec_amended
  by_cases h100 : c = "100"
  · simp [h100]
  · by_cases h101 : c = "101" ∨ c = "135"
    · simp [h100, h101]
    · by_cases h102 : c = "102"
      · simp [h100, h101, h102]
      · by_cases hsw : pyStartsWith c "2" = true ∨ pyStartsWith c "3" = true
        · have hne : c ≠ "" := by
            intro he
            subst he
            revert hsw
            decide
          simp [h100, h101, h102, hsw, hne]
        · simp [h100, h101, h102, hsw]

/-- C10: `parse_numeros` returns exactly the set of integer values of the
comma-separated tokens whose stripped form is non-empty and all digits;
other tokens are silently ignored (no error path), and the empty string
yields the empty set. -/
theorem parse_numeros_correct (raw : String) :
    parse_numeros "" = ∅
    ∧ (∀ k : ℕ, k ∈ parse_numeros raw ↔
        ∃ t ∈ (pySplitOn ',' raw).map pyStrip,
          t.data ≠ [] ∧ t.data.all (·.isDigit) ∧ pyToNat t = k) := by
  constructor
  · rfl
  · intro k
    have hdig : ∀ t : String, pyIsDigit t = true ↔
        (t.data ≠ [] ∧ t.data.all (·.isDigit) = true) := by
      intro t
      unfold pyIsDigit
      rw [Bool.and_eq_true, Bool.not_eq_true', List.isEmpty_eq_false]
    unfold parse_numeros
    by_cases hraw : raw = ""
    · subst hraw
      rw [if_pos rfl]
      constructor
      · intro hk
        exact absurd hk (Finset.not_mem_empty k)
      · rintro ⟨t, ht, hne, _⟩
        have hts : (pySplitOn ',' "").map pyStrip = [""] := by decide
        rw [hts] at ht
        simp only [List.mem_singleton] at ht
        subst ht
        exact (hne rfl).elim
    · simp only [if_neg hraw, List.mem_toFinset, List.mem_filterMap]
      constructor
      · rintro ⟨t, ht, hsome⟩
        by_cases hd : pyIsDigit t
        · rw [if_pos hd] at hsome
          obtain ⟨h1, h2⟩ := (hdig t).mp hd
          exact ⟨t, ht, h1, h2, Option.some_injective ℕ hsome⟩
        · rw [if_neg hd] at hsome
          exact absurd hsome (Option.noConfusion)
      · rintro ⟨t, ht, hne, hall, hnat⟩
        refine ⟨t, ht, ?_⟩
        rw [if_pos ((hdig t).mpr ⟨hne, hall⟩), hnat]

/-- C2: for a non-empty finite set of naturals, the computed `faltantes`
list is strictly ascending, contains exactly the numbers of the inclusive
range `[min, max]` missing from the set, is disjoint from the set, and
together with the set restricted to `[min, max]` reconstructs the whole
range. -/
theorem faltantes_correct (numeros : Finset ℕ) (h : numeros.Nonempty) :
    List.Sorted (· < ·) (faltantes numeros h)
    ∧ (∀ n : ℕ, n ∈ faltantes numeros h ↔
        numeros.min' h ≤ n ∧ n ≤ numeros.max' h ∧ n ∉ numeros)
    ∧ (faltantes numeros h).toFinset ∩ numeros = ∅
    ∧ (faltantes numeros h).toFinset
        ∪ (numeros ∩ Finset.Icc (numeros.min' h) (numeros.max' h))
      = Finset.Icc (numeros.min' h) (numeros.max' h) := by
  have hmem : ∀ n : ℕ, n ∈ faltantes numeros h ↔
      numeros.min' h ≤ n ∧ n ≤ numeros.max' h ∧ n ∉ numeros := by
    intro n
    unfold faltantes
    rw [Finset.mem_sort, Finset.mem_sdiff, Finset.mem_Icc]
    tauto
  refine ⟨Finset.sort_sorted_lt _, hmem, ?_, ?_⟩
  · ext n
    simp only [Finset.mem_inter, List.mem_toFinset, Finset.not_mem_empty,
      iff_false, not_and]
    intro hf
    exact ((hmem n).mp hf).2.2
  · ext n
    simp only [Finset.mem_union, Finset.mem_inter, List.mem_toFinset,
      Finset.mem_Icc, hmem]
    constructor
    · rintro (⟨h1, h2, _⟩ | ⟨_, h1, h2⟩)
      · exact ⟨h1, h2⟩
      · exact ⟨h1, h2⟩
    · rintro ⟨h1, h2⟩
      by_cases hn : n ∈ numeros
      · exact Or.inr ⟨hn, h1, h2⟩
      · exact Or.inl ⟨h1, h2, hn⟩

/-- C2 witness: the theorem instantiated at the concrete set `{100, 103}`:
`101` is reported missing and the disjointness fact holds there. -/
theorem faltantes_correct_witness :
    (101 ∈ faltantes {100, 103} ⟨100, by decide⟩)
    ∧ (faltantes {100, 103} ⟨100, by decide⟩).toFinset ∩ {100, 103} = ∅ := by
  refine ⟨?_, (faltantes_correct {100, 103} ⟨100, by decide⟩).2.2.1⟩
  exact ((faltantes_correct {100, 103} ⟨100, by decide⟩).2.1 101).mpr (by decide)

/-! ## Theorems: C3 (gap rendering) -/

theorem runsOf_cons_cons (a b : ℤ) (rest r : List ℤ) (rs : List (List ℤ))
    (h : runsOf (b :: rest) = r :: rs) :
    runsOf (a :: b :: rest)
      = if b = a + 1 then (a :: r) :: rs else [a] :: r :: rs := by
  rw [runsOf, h]

theorem runsOf_cons : ∀ (xs : List ℤ) (x : ℤ),
    ∃ t rs, runsOf (x :: xs) = (x :: t) :: rs
  | [], _ => ⟨[], [], rfl⟩
  | b :: rest, x => by
    obtain ⟨t, rs, h⟩ := runsOf_cons rest b
    rw [runsOf_cons_cons x b rest _ _ h]
    by_cases hb : b = x + 1
    · exact ⟨b :: t, rs, by rw [if_pos hb]⟩
    · exact ⟨[], (b :: t) :: rs, by rw [if_neg hb]⟩

theorem runsOf_chain : ∀ (l : List ℤ),
    ∀ r ∈ runsOf l, r.Chain' (fun a b => b = a + 1)
  | [] => by simp [runsOf]
  | [a] => by simp [runsOf]
  | a :: b :: rest => by
    have ih := runsOf_chain (b :: rest)
    obtain ⟨t, rs, h⟩ := runsOf_cons rest b
    rw [runsOf_cons_cons a b rest _ _ h]
    rw [h] at ih
    by_cases hb : b = a + 1
    · rw [if_pos hb]
      intro r hr
      rcases List.mem_cons.mp hr with hr | hr
      · subst hr
        exact List.chain'_cons.mpr ⟨hb, ih (b :: t) (List.mem_cons_self _ _)⟩
      · exact ih r (List.mem_cons_of_mem _ hr)
    · rw [if_neg hb]
      intro r hr
      rcases List.mem_cons.mp hr with hr | hr
      · subst hr
        exact List.chain'_singleton a
      · exact ih r hr

theorem runsOf_flatten : ∀ l : List ℤ, (runsOf l).flatten = l
  | [] => rfl
  | [_] => rfl
  | a :: b :: rest => by
    have ih := runsOf_flatten (b :: rest)
    obtain ⟨t, rs, h⟩ := runsOf_cons rest b
    rw [runsOf_cons_cons a b rest _ _ h]
    rw [h] at ih
    by_cases hb : b = a + 1
    · rw [if_pos hb]
      simp only [List.flatten_cons] at ih ⊢
      rw [List.cons_append, ih]
    · rw [if_neg hb]
      simp only [List.flatten_cons] at ih ⊢
      rw [List.singleton_append, ih]

theorem chain_le_getLast : ∀ (xs : List ℤ) (x : ℤ),
    (x :: xs).Chain' (fun a b => b = a + 1) →
    x ≤ (x :: xs).getLast (List.cons_ne_nil x xs)
  | [], x, _ => le_refl x
  | b :: rest, x, h => by
    obtain ⟨hb, hrest⟩ := List.chain'_cons.mp h
    have ih := chain_le_getLast rest b hrest
    rw [List.getLast_cons (List.cons_ne_nil b rest)]
    omega

theorem runToken_eq_token (x : ℤ) (t : List ℤ)
    (h : (x :: t).Chain' (fun a b => b = a + 1)) :
    runToken (x :: t)
      = tokenIntervalo x ((x :: t).getLast (List.cons_ne_nil x t)) := by
  cases t with
  | nil => simp [runToken, tokenIntervalo, List.getLast]
  | cons b rest =>
    obtain ⟨hb, hrest⟩ := List.chain'_cons.mp h
    have hlt : x < (b :: rest).getLast (List.cons_ne_nil b rest) :=
      lt_of_lt_of_le (by omega) (chain_le_getLast rest b hrest)
    rw [runToken, List.getLast_cons (List.cons_ne_nil b rest), tokenIntervalo,
      if_neg (ne_of_lt hlt)]

theorem lacunasLoop_eq_runs : ∀ (xs : List ℤ) (inicio prev : ℤ)
    (t : List ℤ) (rs : List (List ℤ)),
    runsOf (prev :: xs) = (prev :: t) :: rs →
    lacunasLoop inicio prev xs
      = tokenIntervalo inicio ((prev :: t).getLast (List.cons_ne_nil prev t))
          :: rs.map runToken
  | [], inicio, prev, t, rs => by
    intro h
    rw [runsOf] at h
    injection h with h1 h2
    injection h1 with _ h1'
    subst h2
    rw [← h1']
    rfl
  | n :: rest, inicio, prev, t, rs => by
    intro h
    obtain ⟨t', rs', h'⟩ := runsOf_cons rest n
    rw [runsOf_cons_cons prev n rest _ _ h'] at h
    by_cases hn : n = prev + 1
    · rw [if_pos hn] at h
      injection h with h1 h2
      injection h1 with _ h1'
      subst h2
      rw [← h1']
      rw [lacunasLoop, if_pos hn, lacunasLoop_eq_runs rest inicio n t' rs' h']
      rw [List.getLast_cons (List.cons_ne_nil n t')]
    · rw [if_neg hn] at h
      injection h with h1 h2
      injection h1 with _ h1'
      subst h2
      rw [← h1']
      rw [lacunasLoop, if_neg hn, lacunasLoop_eq_runs rest n n t' rs' h']
      have hchain : (n :: t').Chain' (fun a b => b = a + 1) := by
        have hmem := runsOf_chain (n :: rest)
        rw [h'] at hmem
        exact hmem (n :: t') (List.mem_cons_self _ _)
      rw [List.map_cons, runToken_eq_token n t' hchain]
      rfl

theorem runsOf_ne_nil : ∀ (l : List ℤ), ∀ r ∈ runsOf l, r ≠ []
  | [] => by simp [runsOf]
  | [a] => by simp [runsOf]
  | a :: b :: rest => by
    have ih := runsOf_ne_nil (b :: rest)
    obtain ⟨t, rs, h⟩ := runsOf_cons rest b
    rw [runsOf_cons_cons a b rest _ _ h]
    rw [h] at ih
    by_cases hb : b = a + 1
    · rw [if_pos hb]
      intro r hr
      rcases List.mem_cons.mp hr with hr | hr
      · subst hr
        exact List.cons_ne_nil _ _
      · exact ih r (List.mem_cons_of_mem _ hr)
    · rw [if_neg hb]
      intro r hr
      rcases List.mem_cons.mp hr with hr | hr
      · subst hr
        exact List.cons_ne_nil _ _
      · exact ih r hr

theorem runsOf_maximal : ∀ (l : List ℤ),
    (runsOf l).Chain' (fun r s => ∀ a b : ℤ,
      r.getLast? = some a → s.head? = some b → b ≠ a + 1)
  | [] => List.chain'_nil
  | [_] => List.chain'_singleton _
  | a :: b :: rest => by
    have ih := runsOf_maximal (b :: rest)
    obtain ⟨t, rs, h⟩ := runsOf_cons rest b
    rw [runsOf_cons_cons a b rest _ _ h]
    rw [h] at ih
    by_cases hb : b = a + 1
    · rw [if_pos hb]
      rcases List.chain'_cons'.mp ih with ⟨hhead, htail⟩
      refine List.chain'_cons'.mpr ⟨?_, htail⟩
      intro y hy a' b' hlast hhead'
      rw [List.getLast?_cons_cons] at hlast
      exact hhead y hy a' b' hlast hhead'
    · rw [if_neg hb]
      refine List.chain'_cons.mpr ⟨?_, ih⟩
      intro a' b' hlast hhead'
      simp only [List.getLast?_singleton, Option.some.injEq] at hlast
      simp only [List.head?_cons, Option.some.injEq] at hhead'
      subst hlast
      subst hhead'
      exact hb

/-- C3: for every non-empty strictly ascending list (the shape in which
the gap analysis hands the missing numbers to the renderer),
`agrupar_lacunas` renders exactly the comma-separated tokens of the
maximal consecutive runs of the list — each run token being the single
number for a length-1 run and `"start-end"` otherwise (`runToken`), the
runs reassembling the whole list, each run consecutive and non-empty, and
adjacent runs never mergeable; in particular `[5, 6, 7, 10]` renders as
`"5-7, 10"` and `[3]` as `"3"`. -/
theorem agrupar_lacunas_correct (l : List ℤ) (h1 : l ≠ [])
    (h2 : l.Sorted (· < ·)) :
    agrupar_lacunas l = String.intercalate ", " ((runsOf l).map runToken)
    ∧ (runsOf l).flatten = l
    ∧ (∀ r ∈ runsOf l, r ≠ [] ∧ r.Chain' (fun a b => b = a + 1))
    ∧ (runsOf l).Chain' (fun r s => ∀ a b : ℤ,
        r.getLast? = some a → s.head? = some b → b ≠ a + 1)
    ∧ agrupar_lacunas [5, 6, 7, 10] = "5-7, 10"
    ∧ agrupar_lacunas [3] = "3" := by
  have hle : l.Sorted (· ≤ ·) := h2.imp le_of_lt
  have hsortid : List.insertionSort (· ≤ ·) l = l :=
    List.Sorted.insertionSort_eq hle
  obtain ⟨x, xs, rfl⟩ : ∃ x xs, l = x :: xs := by
    cases l with
    | nil => exact (h1 rfl).elim
    | cons x xs => exact ⟨x, xs, rfl⟩
  refine ⟨?_, runsOf_flatten _, ?_, runsOf_maximal _, by decide, by decide⟩
  · obtain ⟨t, rs, h⟩ := runsOf_cons xs x
    unfold agrupar_lacunas
    rw [hsortid]
    show String.intercalate ", " (lacunasLoop x x xs) = _
    rw [lacunasLoop_eq_runs xs x x t rs h, h, List.map_cons]
    have hchain : (x :: t).Chain' (fun a b => b = a + 1) := by
      have hmem := runsOf_chain (x :: xs)
      rw [h] at hmem
      exact hmem (x :: t) (List.mem_cons_self _ _)
    rw [runToken_eq_token x t hchain]
  · intro r hr
    exact ⟨runsOf_ne_nil _ r hr, runsOf_chain _ r hr⟩

/-- C3 witness: the theorem instantiated at the concrete list
`[5, 6, 7, 10]`. -/
theorem agrupar_lacunas_correct_witness :
    agrupar_lacunas [5, 6, 7, 10]
        = String.intercalate ", " ((runsOf [5, 6, 7, 10]).map runToken)
    ∧ (runsOf [5, 6, 7, 10]).flatten = [5, 6, 7, 10]
    ∧ agrupar_lacunas [5, 6, 7, 10] = "5-7, 10" :=
  ⟨(agrupar_lacunas_correct [5, 6, 7, 10] (by decide) (by decide)).1,
   (agrupar_lacunas_correct [5, 6, 7, 10] (by decide) (by decide)).2.1,
   (agrupar_lacunas_correct [5, 6, 7, 10] (by decide) (by decide)).2.2.2.2.1⟩

/-! ## Theorems: C4, C5 (copy selection), C6 (record extraction) -/

/-- C4 (code bug witness): evaluating the copy step at the failing input —
a record whose `number_start` is the digit string `"0"`, with `0` in the
caller-supplied target set and the record's bytes present under its source
name — shows the record is NOT copied: Python's `if numero and ...`
truthiness test drops the parsed value `0`, although the claim (and the
spec, and the sibling implementation in `analise-xml.py` line 208-216,
which tests `isdigit()` only) require it to be copied. -/
theorem copy_step_zero_never_copied :
    copy_step [("a.xml", [60])] {0}
        { arquivo_path := "a.xml", numero_inicial := "0" }
      = ({ arquivo_path := "a.xml", numero_inicial := "0" }, none)
    ∧ (0 : ℕ) ∈ ({0} : Finset ℕ)
    ∧ pyIsDigit "0" = true := by
  refine ⟨by decide, by decide, by decide⟩

/-- C5: a record whose `numero_inicial` does not parse as an integer
(empty, or containing a non-digit character) is never selected by the
copy step, for every target set and every file map: the record is
returned unchanged (in particular `foi_copiado` is never set) and nothing
is written to the copy output. -/
theorem copy_step_nondigit_never_copied
    (files : List (String × List UInt8)) (targets : Finset ℕ)
    (nota : DadosNota)
    (h : nota.numero_inicial = ""
        ∨ ∃ c ∈ nota.numero_inicial.data, ¬ c.isDigit) :
    copy_step files targets nota = (nota, none)
    ∧ (copy_step files targets nota).1.foi_copiado = nota.foi_copiado := by
  have hcond : ¬ (nota.numero_inicial ≠ "" ∧ pyIsDigit nota.numero_inicial = true) := by
    rcases h with h | ⟨c, hc, hcd⟩
    · intro hk
      exact hk.1 h
    · intro hk
      have := hk.2
      unfold pyIsDigit at this
      rw [Bool.and_eq_true, List.all_eq_true] at this
      exact hcd (this.2 c hc)
  have heq : copy_step files targets nota = (nota, none) := by
    unfold copy_step
    rw [if_neg hcond]
  exact ⟨heq, by rw [heq]⟩

/-- C5 witness: the theorem instantiated at a record with the non-numeric
`numero_inicial = "abc"`, an arbitrary target set `{100}` and a file map
containing the record's name. -/
theorem copy_step_nondigit_never_copied_witness :
    copy_step [("a.xml", [60])] {100}
        { arquivo_path := "a.xml", numero_inicial := "abc" }
      = ({ arquivo_path := "a.xml", numero_inicial := "abc" }, none) :=
  (copy_step_nondigit_never_copied [("a.xml", [60])] {100}
    { arquivo_path := "a.xml", numero_inicial := "abc" }
    (Or.inr ⟨'a', by decide, by decide⟩)).1

/-- C6: the extractor is a total function into `DadosNota` (never raises:
both parser outcomes are handled, and every field extraction has an
explicit default), and on a buffer whose parse fails — whatever the bytes,
including undecodable ones, since the `errors='replace'` decode is total —
the returned record carries all default fields (`tipo_documento` is the
"Desconhecido" default, textual fields empty, status fields the `"N/A"`
sentinel) plus a single parse-failure note in `erros`. -/
theorem obter_dados_malformed (parse : String → Except String Xml)
    (filename : String) (content : List UInt8) (e : String)
    (h : parse (decode_utf8_replace content) = Except.error e) :
    obter_dados_xml_de_conteudo parse filename content =
      { arquivo_path := filename, tipo_documento := "Desconhecido",
        chave_acesso := "", status_code := "N/A", status_text := "N/A",
        modelo := "", serie := "", numero_inicial := "", numero_final := "",
        data_emissao := "", foi_copiado := false,
        erros := ["XML inválido: " ++ e] } := by
  unfold obter_dados_xml_de_conteudo
  rw [h]

/-- C6 witness: a parser that fails with a concrete message, applied to a
concrete (empty) buffer. -/
theorem obter_dados_malformed_witness :
    obter_dados_xml_de_conteudo (fun _ => Except.error "syntax error")
        "nota.xml" [] =
      { arquivo_path := "nota.xml", tipo_documento := "Desconhecido",
        chave_acesso := "", status_code := "N/A", status_text := "N/A",
        modelo := "", serie := "", numero_inicial := "", numero_final := "",
        data_emissao := "", foi_copiado := false,
        erros := ["XML inválido: " ++ "syntax error"] } :=
  obter_dados_malformed (fun _ => Except.error "syntax error")
    "nota.xml" [] "syntax error" rfl

/-! ## Order lemmas for the sorts -/

theorem lexLe_total : ∀ as bs : List Char, lexLe as bs = true ∨ lexLe bs as = true
  | [], _ => Or.inl rfl
  | _ :: _, [] => Or.inr rfl
  | a :: as, b :: bs => by
    rcases lt_trichotomy a b with h | h | h
    · left
      rw [lexLe, if_pos h]
    · subst h
      rcases lexLe_total as bs with ih | ih
      · left
        rw [lexLe, if_neg (lt_irrefl a), if_neg (lt_irrefl a)]
        exact ih
      · right
        rw [lexLe, if_neg (lt_irrefl a), if_neg (lt_irrefl a)]
        exact ih
    · right
      rw [lexLe, if_pos h]

theorem lexLe_trans : ∀ as bs cs : List Char,
    lexLe as bs = true → lexLe bs cs = true → lexLe as cs = true
  | [], _, _ => fun _ _ => rfl
  | a :: as, [], _ => by
    intro h1 _
    rw [lexLe] at h1
    exact absurd h1 (by decide)
  | _ :: _, b :: bs, [] => by
    intro _ h2
    rw [lexLe] at h2
    exact absurd h2 (by decide)
  | a :: as, b :: bs, c :: cs => by
    intro h1 h2
    rw [lexLe] at h1 h2 ⊢
    rcases lt_trichotomy a b with hab | hab | hab
    · rcases lt_trichotomy b c with hbc | hbc | hbc
      · rw [if_pos (lt_trans hab hbc)]
      · subst hbc
        rw [if_pos hab]
      · rw [if_neg (lt_asymm hbc), if_pos hbc] at h2
        exact absurd h2 (by decide)
    · subst hab
      rcases lt_trichotomy a c with hac | hac | hac
      · rw [if_pos hac]
      · subst hac
        rw [if_neg (lt_irrefl a), if_neg (lt_irrefl a)] at h1 h2 ⊢
        exact lexLe_trans as bs cs h1 h2
      · rw [if_neg (lt_asymm hac), if_pos hac] at h2
        exact absurd h2 (by decide)
    · rw [if_neg (lt_asymm hab), if_pos hab] at h1
      exact absurd h1 (by decide)

theorem lexLe_antisymm : ∀ as bs : List Char,
    lexLe as bs = true → lexLe bs as = true → as = bs
  | [], [] => fun _ _ => rfl
  | [], _ :: _ => by
    intro _ h2
    rw [lexLe] at h2
    exact absurd h2 (by decide)
  | _ :: _, [] => by
    intro h1 _
    rw [lexLe] at h1
    exact absurd h1 (by decide)
  | a :: as, b :: bs => by
    intro h1 h2
    rw [lexLe] at h1 h2
    rcases lt_trichotomy a b with hab | hab | hab
    · rw [if_neg (lt_asymm hab), if_pos hab] at h2
      exact absurd h2 (by decide)
    · subst hab
      rw [if_neg (lt_irrefl a), if_neg (lt_irrefl a)] at h1 h2
      rw [lexLe_antisymm as bs h1 h2]
    · rw [if_neg (lt_asymm hab), if_pos hab] at h1
      exact absurd h1 (by decide)

theorem strData_eq {s t : String} (h : s.data = t.data) : s = t := by
  cases s
  cases t
  exact congrArg String.mk h

theorem pyStrLe_trans : ∀ a b c : String,
    pyStrLe a b = true → pyStrLe b c = true → pyStrLe a c = true :=
  fun _ _ _ h1 h2 => lexLe_trans _ _ _ h1 h2

theorem pyStrLe_total : ∀ a b : String, pyStrLe a b = true ∨ pyStrLe b a = true :=
  fun a b => lexLe_total a.data b.data

theorem pyStrLe_antisymm : ∀ a b : String,
    pyStrLe a b = true → pyStrLe b a = true → a = b :=
  fun _ _ h1 h2 => strData_eq (lexLe_antisymm _ _ h1 h2)

theorem tupLe_total : ∀ a b : String × String, tupLe a b = true ∨ tupLe b a = true := by
  intro a b
  unfold tupLe
  by_cases h : a.1.data = b.1.data
  · rw [if_pos h, if_pos h.symm]
    exact lexLe_total _ _
  · rw [if_neg h, if_neg (fun he => h he.symm)]
    exact lexLe_total _ _

theorem tupLe_trans : ∀ a b c : String × String,
    tupLe a b = true → tupLe b c = true → tupLe a c = true := by
  intro a b c h1 h2
  unfold tupLe at h1 h2 ⊢
  by_cases hab : a.1.data = b.1.data
  · by_cases hbc : b.1.data = c.1.data
    · rw [if_pos hab] at h1
      rw [if_pos hbc] at h2
      rw [if_pos (hab.trans hbc)]
      exact lexLe_trans _ _ _ h1 h2
    · rw [if_neg hbc] at h2
      rw [if_neg (fun hac => hbc (hab.symm.trans hac)), hab]
      exact h2
  · by_cases hbc : b.1.data = c.1.data
    · rw [if_neg hab] at h1
      rw [if_neg (fun hac => hab (hac.trans hbc.symm)), ← hbc]
      exact h1
    · rw [if_neg hab] at h1
      rw [if_neg hbc] at h2
      by_cases hac : a.1.data = c.1.data
      · exact absurd (lexLe_antisymm _ _ h1 (hac ▸ h2)) hab
      · rw [if_neg hac]
        exact lexLe_trans _ _ _ h1 h2

theorem tupLe_antisymm : ∀ a b : String × String,
    tupLe a b = true → tupLe b a = true → a = b := by
  intro a b h1 h2
  unfold tupLe at h1 h2
  by_cases hab : a.1.data = b.1.data
  · rw [if_pos hab] at h1
    rw [if_pos hab.symm] at h2
    obtain ⟨a1, a2⟩ := a
    obtain ⟨b1, b2⟩ := b
    have e1 : a1 = b1 := strData_eq hab
    have e2 : a2 = b2 := strData_eq (lexLe_antisymm _ _ h1 h2)
    rw [e1, e2]
  · rw [if_neg hab] at h1
    rw [if_neg (fun he => hab he.symm)] at h2
    exact absurd (lexLe_antisymm _ _ h1 h2) hab

theorem eq_of_perm_sorted_key {α β : Type} (key : α → β) (le : β → β → Bool)
    (anti : ∀ x y, le x y = true → le y x = true → x = y) :
    ∀ l₁ l₂ : List α, l₁.Perm l₂ → (l₁.map key).Nodup →
      l₁.Pairwise (fun a b => le (key a) (key b) = true) →
      l₂.Pairwise (fun a b => le (key a) (key b) = true) → l₁ = l₂
  | [], l₂ => fun hp _ _ _ => (hp.symm.eq_nil).symm
  | a :: t₁, l₂ => by
    intro hp hnd hs₁ hs₂
    cases l₂ with
    | nil =>
      have := hp.length_eq
      simp at this
    | cons b t₂ =>
      by_cases hab : a = b
      · subst hab
        rw [List.map_cons] at hnd
        have heq := eq_of_perm_sorted_key key le anti t₁ t₂ hp.cons_inv
          (List.nodup_cons.mp hnd).2 (List.pairwise_cons.mp hs₁).2
          (List.pairwise_cons.mp hs₂).2
        rw [heq]
      · have ha : a ∈ b :: t₂ := hp.mem_iff.mp (List.mem_cons_self a t₁)
        have hb : b ∈ a :: t₁ := hp.mem_iff.mpr (List.mem_cons_self b t₂)
        have ha' : a ∈ t₂ := by
          rcases List.mem_cons.mp ha with h | h
          · exact absurd h hab
          · exact h
        have hb' : b ∈ t₁ := by
          rcases List.mem_cons.mp hb with h | h
          · exact absurd h.symm hab
          · exact h
        have h1 := (List.pairwise_cons.mp hs₁).1 b hb'
        have h2 := (List.pairwise_cons.mp hs₂).1 a ha'
        have hk : key a = key b := anti _ _ h1 h2
        rw [List.map_cons] at hnd
        have : key a ∈ t₁.map key := by
          rw [hk]
          exact List.mem_map_of_mem key hb'
        exact absurd this (List.nodup_cons.mp hnd).1

/-! ## Report-generation lemmas and theorems (C7, C8, C9) -/

theorem sorted_insertionSort_nome (lista : List DadosNota) :
    List.Pairwise (fun a b : DadosNota =>
        pyStrLe (pathName a.arquivo_path) (pathName b.arquivo_path) = true)
      (List.insertionSort
        (fun a b => pyStrLe (pathName a.arquivo_path) (pathName b.arquivo_path))
        lista) := by
  haveI : IsTotal DadosNota (fun a b : DadosNota =>
      pyStrLe (pathName a.arquivo_path) (pathName b.arquivo_path) = true) :=
    ⟨fun a b => pyStrLe_total _ _⟩
  haveI : IsTrans DadosNota (fun a b : DadosNota =>
      pyStrLe (pathName a.arquivo_path) (pathName b.arquivo_path) = true) :=
    ⟨fun _ _ _ => pyStrLe_trans _ _ _⟩
  exact List.sorted_insertionSort _ lista

theorem sorted_insertionSort_str (l : List String) :
    List.Pairwise (fun a b : String => pyStrLe a b = true)
      (List.insertionSort (fun a b => pyStrLe a b) l) := by
  haveI : IsTotal String (fun a b : String => pyStrLe a b = true) :=
    ⟨pyStrLe_total⟩
  haveI : IsTrans String (fun a b : String => pyStrLe a b = true) :=
    ⟨fun _ _ _ => pyStrLe_trans _ _ _⟩
  exact List.sorted_insertionSort _ l

theorem sorted_insertionSort_tup (l : List (String × String)) :
    List.Pairwise (fun a b : String × String => tupLe a b = true)
      (List.insertionSort (fun a b => tupLe a b) l) := by
  haveI : IsTotal (String × String) (fun a b => tupLe a b = true) :=
    ⟨tupLe_total⟩
  haveI : IsTrans (String × String) (fun a b => tupLe a b = true) :=
    ⟨tupLe_trans⟩
  exact List.sorted_insertionSort _ l

theorem relatorio_detalhado_names_sorted (lista : List DadosNota) :
    List.Sorted (fun x y => pyStrLe x y = true)
      ((relatorio_detalhado lista).tail.map (fun r => r.headD "")) := by
  unfold relatorio_detalhado
  rw [List.tail_cons, List.map_map]
  exact List.Pairwise.map _ (fun a b hab => hab)
    (sorted_insertionSort_nome lista)

theorem serie_keys_sorted (lista : List DadosNota) :
    List.Sorted (fun a b => tupLe a b = true) (serie_keys lista) := by
  unfold serie_keys
  exact sorted_insertionSort_tup _

theorem contagem_status_labels_sorted (lista : List DadosNota) :
    List.Sorted (fun a b => pyStrLe a b = true)
      ((contagem_status lista).map Prod.fst) := by
  unfold contagem_status
  rw [List.map_map]
  exact List.Pairwise.map _ (fun a b hab => hab)
    (sorted_insertionSort_str _)

theorem contagem_status_perm (l₁ l₂ : List DadosNota) (hperm : l₁.Perm l₂) :
    contagem_status l₁ = contagem_status l₂ := by
  unfold contagem_status
  haveI : IsAntisymm String (fun a b : String => pyStrLe a b = true) :=
    ⟨pyStrLe_antisymm⟩
  have hlabels :
      List.insertionSort (fun a b => pyStrLe a b)
          ((l₁.map (fun n => n.tipo_documento)).dedup)
        = List.insertionSort (fun a b => pyStrLe a b)
          ((l₂.map (fun n => n.tipo_documento)).dedup) :=
    List.eq_of_perm_of_sorted
      (((List.perm_insertionSort _ _).trans
        ((hperm.map _).dedup)).trans (List.perm_insertionSort _ _).symm)
      (sorted_insertionSort_str _) (sorted_insertionSort_str _)
  rw [hlabels]
  apply List.map_congr_left
  intro s _
  rw [(hperm.map _).count_eq]

theorem serie_keys_perm (l₁ l₂ : List DadosNota) (hperm : l₁.Perm l₂) :
    serie_keys l₁ = serie_keys l₂ := by
  unfold serie_keys
  haveI : IsAntisymm (String × String) (fun a b => tupLe a b = true) :=
    ⟨tupLe_antisymm⟩
  exact List.eq_of_perm_of_sorted
    (((List.perm_insertionSort _ _).trans
      (((hperm.filter _).map _).dedup)).trans (List.perm_insertionSort _ _).symm)
    (sorted_insertionSort_tup _) (sorted_insertionSort_tup _)

theorem relatorio_detalhado_perm (l₁ l₂ : List DadosNota) (hperm : l₁.Perm l₂)
    (hnomes : (l₁.map (fun n => pathName n.arquivo_path)).Nodup) :
    relatorio_detalhado l₁ = relatorio_detalhado l₂ := by
  unfold relatorio_detalhado
  have hsorteq :
      List.insertionSort
        (fun a b => pyStrLe (pathName a.arquivo_path) (pathName b.arquivo_path)) l₁
      = List.insertionSort
        (fun a b => pyStrLe (pathName a.arquivo_path) (pathName b.arquivo_path)) l₂ :=
    eq_of_perm_sorted_key (fun n => pathName n.arquivo_path) pyStrLe
      pyStrLe_antisymm _ _
      (((List.perm_insertionSort _ _).trans hperm).trans
        (List.perm_insertionSort _ _).symm)
      (((List.perm_insertionSort _ l₁).map _).nodup_iff.mpr hnomes)
      (sorted_insertionSort_nome l₁) (sorted_insertionSort_nome l₂)
  rw [hsorteq]

/-- C7 counterexample: the engine variant's detailed export
(`analysis_engine.py` lines 191-232), applied to a one-record list, does
not start with the claimed header row `cabecalho_detalhado` — its schema
is `cabecalho_engine`. -/
theorem relatorio_engine_header_differs :
    (relatorio_detalhado_engine [{ arquivo_path := "a.xml" }]).head?
        ≠ some cabecalho_detalhado
    ∧ (relatorio_detalhado_engine [{ arquivo_path := "a.xml" }]).head?
        = some cabecalho_engine := by
  refine ⟨by decide, by decide⟩

/-- C7 (amended): the script variant's detailed export
(`analise-xml.py` lines 323-338) has exactly the claimed columns in the
claimed order as its header row, exactly one row per record (the data
rows are a permutation of the records' rows), rows sorted ascending by
source name (the first column), every row 12 fields wide, a field
separator distinct from a comma, and UTF-8 encoding; the engine variant
instead uses the `cabecalho_engine` schema with gap-filler rows. -/
theorem relatorio_detalhado_schema (lista : List DadosNota) :
    (relatorio_detalhado lista).head? = some cabecalho_detalhado
    ∧ (relatorio_detalhado lista).length = lista.length + 1
    ∧ ((relatorio_detalhado lista).tail).Perm (lista.map linha_detalhada)
    ∧ List.Sorted (fun x y => pyStrLe x y = true)
        ((relatorio_detalhado lista).tail.map (fun r => r.headD ""))
    ∧ (∀ r ∈ (relatorio_detalhado lista).tail, r.length = 12)
    ∧ delimitador_csv ≠ ',' ∧ codificacao_csv = "utf-8" := by
  refine ⟨rfl, ?_, ?_, relatorio_detalhado_names_sorted lista, ?_,
    by decide, rfl⟩
  · unfold relatorio_detalhado
    rw [List.length_cons, List.length_map,
      (List.perm_insertionSort _ _).length_eq]
  · unfold relatorio_detalhado
    rw [List.tail_cons]
    exact (List.perm_insertionSort _ _).map _
  · intro r hr
    unfold relatorio_detalhado at hr
    rw [List.tail_cons] at hr
    obtain ⟨n, _, rfl⟩ := List.mem_map.mp hr
    rfl

/-- C7 witness: the amended schema theorem evaluated at a concrete
one-record list. -/
theorem relatorio_detalhado_schema_witness :
    (relatorio_detalhado [{ arquivo_path := "b.xml" }]).head?
        = some cabecalho_detalhado
    ∧ (relatorio_detalhado [{ arquivo_path := "b.xml" }]).length = 2 :=
  ⟨(relatorio_detalhado_schema [{ arquivo_path := "b.xml" }]).1,
   (relatorio_detalhado_schema [{ arquivo_path := "b.xml" }]).2.1⟩

set_option maxRecDepth 4000 in
/-- C8 counterexample: two runs of the report generation at different
wall-clock times produce different summary bytes — the summary embeds
`datetime.now()`, so byte-identity across repeated runs fails in the
timestamp line even on identical record lists. -/
theorem sumario_timestamp_differs :
    sumario_cabecalho_status [{ arquivo_path := "a.xml" }]
        "01/01/2025 10:00:00" "/origem"
      ≠ sumario_cabecalho_status [{ arquivo_path := "a.xml" }]
        "01/01/2025 10:00:01" "/origem" := by
  decide

/-- C8 (amended): with the rendered run timestamp (and origin path) held
fixed, report generation is deterministic and input-order independent:
permuting the record list leaves the summary header/status section and
the detailed-row export byte-identical (the detailed rows additionally
use that the run's source names are distinct, which the spec's data model
guarantees), the status-frequency table is sorted by label, the series
groups by `(modelo, serie)`, and the detailed rows by source name. -/
theorem gerar_relatorios_deterministic (l₁ l₂ : List DadosNota)
    (hperm : l₁.Perm l₂)
    (hnomes : (l₁.map (fun n => pathName n.arquivo_path)).Nodup)
    (agora origem : String) :
    sumario_cabecalho_status l₁ agora origem
        = sumario_cabecalho_status l₂ agora origem
    ∧ relatorio_detalhado l₁ = relatorio_detalhado l₂
    ∧ serie_keys l₁ = serie_keys l₂
    ∧ List.Sorted (fun a b => pyStrLe a b = true)
        ((contagem_status l₁).map Prod.fst)
    ∧ List.Sorted (fun a b => tupLe a b = true) (serie_keys l₁)
    ∧ List.Sorted (fun x y => pyStrLe x y = true)
        ((relatorio_detalhado l₁).tail.map (fun r => r.headD "")) := by
  refine ⟨?_, relatorio_detalhado_perm l₁ l₂ hperm hnomes,
    serie_keys_perm l₁ l₂ hperm, contagem_status_labels_sorted l₁,
    serie_keys_sorted l₁, relatorio_detalhado_names_sorted l₁⟩
  unfold sumario_cabecalho_status
  rw [contagem_status_perm l₁ l₂ hperm, hperm.length_eq]

/-- C8 witness: the determinism theorem applied to a concrete two-record
list and its transposition. -/
theorem gerar_relatorios_deterministic_witness :
    sumario_cabecalho_status
        [{ arquivo_path := "a.xml" }, { arquivo_path := "b.xml" }] "t" "o"
      = sumario_cabecalho_status
        [{ arquivo_path := "b.xml" }, { arquivo_path := "a.xml" }] "t" "o"
    ∧ relatorio_detalhado
        [{ arquivo_path := "a.xml" }, { arquivo_path := "b.xml" }]
      = relatorio_detalhado
        [{ arquivo_path := "b.xml" }, { arquivo_path := "a.xml" }] :=
  ⟨(gerar_relatorios_deterministic
      [{ arquivo_path := "a.xml" }, { arquivo_path := "b.xml" }]
      [{ arquivo_path := "b.xml" }, { arquivo_path := "a.xml" }]
      (List.Perm.swap _ _ _) (by decide) "t" "o").1,
   (gerar_relatorios_deterministic
      [{ arquivo_path := "a.xml" }, { arquivo_path := "b.xml" }]
      [{ arquivo_path := "b.xml" }, { arquivo_path := "a.xml" }]
      (List.Perm.swap _ _ _) (by decide) "t" "o").2.1⟩

/-- C9: on an empty input mapping the analysis run aborts with the single
explicit batch-level rejection before any extraction, copying or report
generation (the `Except.error` is produced by the guard at the top of
`run_analysis` and surfaced by the API layer as HTTP 400 with the same
message), while on every non-empty input the run succeeds and yields one
record per input file regardless of per-record contents — per-record
failures never interrupt the batch. -/
theorem run_analysis_empty_rejects (parse : String → Except String Xml)
    (targets : Finset ℕ) :
    run_analysis parse [] targets
        = Except.error "Nenhum arquivo XML foi enviado para análise."
    ∧ analyze_files_response parse [] targets
        = (400, "Nenhum arquivo XML foi enviado para análise.")
    ∧ ∀ files : List (String × List UInt8), files ≠ [] →
        ∃ r : RunResult, run_analysis parse files targets = Except.ok r
          ∧ r.records.length = files.length := by
  refine ⟨rfl, rfl, ?_⟩
  intro files hne
  unfold run_analysis
  rw [if_neg (by simpa [List.length_eq_zero] using hne)]
  exact ⟨_, rfl, by simp⟩

/-- C9 witness: the rejection theorem instantiated with a concrete
always-failing parser, the empty map, and a concrete one-file map. -/
theorem run_analysis_empty_rejects_witness :
    run_analysis (fun _ => Except.error "x") [] ∅
        = Except.error "Nenhum arquivo XML foi enviado para análise."
    ∧ ∃ r : RunResult,
        run_analysis (fun _ => Except.error "x") [("a.xml", [])] ∅
          = Except.ok r ∧ r.records.length = 1 :=
  ⟨(run_analysis_empty_rejects (fun _ => Except.error "x") ∅).1,
   (run_analysis_empty_rejects (fun _ => Except.error "x") ∅).2.2
     [("a.xml", [])] (by decide)⟩
